import Mathlib

set_option maxHeartbeats 1000000

namespace GenomeRx

/-! Shallow embedding of the GenomeRx client-side collaboration engine
    (src/frontend/src/App.jsx plus the ChatView/CalendarView components).
    Machine time is modelled as a natural number of milliseconds; JS `Date`
    values are modelled as epoch-day numbers with local time equal to UTC. -/

/-- An account record as stored in the `users` list (App.jsx: seeded admin /
    Register). -/
structure User where
  email : String
  password : String
  name : String
  role : String
  active : Bool
deriving DecidableEq

/-- The lockout-relevant state of the Login component: the `attempts` counter
    and `lockedUntil` timestamp (App.jsx 417-418). -/
structure LockState where
  attempts : Nat
  lockedUntil : Option Nat
deriving DecidableEq

/-- Outcome of one Login form submission (App.jsx 422-437). -/
inductive LoginResult where
  | locked
  | invalid
  | deactivated
  | success (name role email : String)
deriving DecidableEq

/-- `String.prototype.trim`: drop leading and trailing whitespace.  Written
    structurally over the character list so that it evaluates by `decide`. -/
def jsTrim (s : String) : String :=
  ⟨((s.data.dropWhile Char.isWhitespace).reverse.dropWhile
      Char.isWhitespace).reverse⟩

/-- `String.prototype.split(",")` on the character list: `[[]]` on the empty
    string, and a new group is opened at every comma. -/
def splitCommaList : List Char → List (List Char)
  | [] => [[]]
  | x :: xs =>
    let r := splitCommaList xs
    if x = ',' then [] :: r
    else
      match r with
      | [] => [[x]]
      | g :: gs => (x :: g) :: gs

/-- `String.prototype.split(",")`. -/
def jsSplitComma (s : String) : List String :=
  (splitCommaList s.data).map fun l => ⟨l⟩

/-- `const locked = lockedUntil && Date.now() < lockedUntil` (App.jsx 420). -/
def isLocked (st : LockState) (now : Nat) : Bool :=
  match st.lockedUntil with
  | none => false
  | some u => decide (now < u)

/-- `users.find((u) => u.email === email && u.password === pass)` (App.jsx 425). -/
def findUser (users : List User) (email pass : String) : Option User :=
  users.find? fun u => u.email == email && u.password == pass

/-- The Login submit handler (App.jsx 422-437).  `roleSel` is the value of the
    "Login as" selector, which is part of the component state but is never
    consulted by `submit`.  On a failed credential lookup the attempts counter
    is incremented and, when it reaches three, `lockedUntil` is set one hour
    ahead; while locked the handler returns immediately. -/
def loginSubmit (users : List User) (email pass roleSel : String)
    (st : LockState) (now : Nat) : LoginResult × LockState :=
  if isLocked st now then (.locked, st)
  else
    match findUser users email pass with
    | none =>
        (.invalid,
          { attempts := st.attempts + 1,
            lockedUntil :=
              if st.attempts + 1 ≥ 3 then some (now + 60 * 60 * 1000)
              else st.lockedUntil })
    | some u =>
        if u.active = false then (.deactivated, st)
        else (.success u.name u.role u.email, st)

/-- A task record (App.jsx TasksView / TaskModal). -/
structure Task where
  id : String
  title : String
  description : String
  assignee : String
  priority : String
  due : String
  status : String
  createdBy : String
  createdAt : String
  updatedAt : String
deriving DecidableEq

/-- The payload built by `TaskModal.save` (App.jsx 1334-1342), before
    `upsertTask` adds id / timestamps / createdBy. -/
structure TaskPayload where
  title : String
  description : String
  assignee : String
  priority : String
  due : String
  status : String
deriving DecidableEq

/-- Validation failures of `TaskModal.save` (App.jsx 1332-1333). -/
inductive TaskValidationError where
  | titleRequired
  | assigneeRequired
deriving DecidableEq

/-- `TaskModal.save` (App.jsx 1330-1344): requires a non-empty trimmed title
    and a non-empty assignee, then builds the payload.  The due date is
    `due ? new Date(due).toISOString() : ""`; for a date-input value
    `YYYY-MM-DD` that ISO string is the date with a midnight-UTC suffix. -/
def taskModalSave (title description assignee priority due status : String) :
    Except TaskValidationError TaskPayload :=
  if jsTrim title = "" then .error .titleRequired
  else if assignee = "" then .error .assigneeRequired
  else .ok
    { title := jsTrim title
      description := jsTrim description
      assignee := assignee
      priority := priority
      due := if due = "" then "" else due ++ "T00:00:00.000Z"
      status := status }

/-- The create branch of `upsertTask` (App.jsx 1130-1135): prepend a new task
    with `id = String(Date.now())`, both timestamps set to the current ISO
    time, and `createdBy = currentUser.email`. -/
def createTask (tasks : List Task) (p : TaskPayload) (actorEmail : String)
    (nowMs : Nat) (nowIso : String) : List Task :=
  { id := toString nowMs
    title := p.title
    description := p.description
    assignee := p.assignee
    priority := p.priority
    due := p.due
    status := p.status
    createdBy := actorEmail
    createdAt := nowIso
    updatedAt := nowIso } :: tasks

/-- `upsertTask` (App.jsx 1126-1136): with an id, patch the matching task with
    the payload fields and re-stamp `updatedAt`; without one, create. -/
def upsertTask (tasks : List Task) (pid : Option String) (p : TaskPayload)
    (actorEmail : String) (nowMs : Nat) (nowIso : String) : List Task :=
  match pid with
  | some i =>
      tasks.map fun x =>
        if x.id = i then
          { x with
            title := p.title, description := p.description,
            assignee := p.assignee, priority := p.priority,
            due := p.due, status := p.status, updatedAt := nowIso }
        else x
  | none => createTask tasks p actorEmail nowMs nowIso

/-- `TasksView.visibleTasks` (App.jsx 1116-1121): hard role gate (Lab Staff
    sees only its own tasks) followed by the optional assignee / status query
    filters (a JS empty-string filter value is falsy, meaning "All"). -/
def visibleTasks (tasks : List Task) (role email assigneeFilter statusFilter : String) :
    List Task :=
  tasks.filter fun t =>
    (if role = "Lab Staff" then t.assignee == email else true) &&
    (if assigneeFilter = "" then true else t.assignee == assigneeFilter) &&
    (if statusFilter = "" then true else t.status == statusFilter)

/-- `TasksView.updateStatus` (App.jsx 1142-1144). -/
def updateStatus (tasks : List Task) (id status nowIso : String) : List Task :=
  tasks.map fun t =>
    if t.id = id then { t with status := status, updatedAt := nowIso } else t

/-- The author snapshot embedded in a chat message (ChatView.jsx 47). -/
structure UserSnap where
  email : String
  name : String
  role : String
deriving DecidableEq

/-- A chat channel record (App.jsx 162). -/
structure Channel where
  id : String
  name : String
  type : String
deriving DecidableEq

/-- A chat message (ChatView.jsx 42-48). -/
structure ChatMsg where
  id : String
  channelId : String
  text : String
  ts : String
  user : UserSnap
deriving DecidableEq

/-- The chat store: channels plus the message log (App.jsx 161-164). -/
structure ChatState where
  channels : List Channel
  messages : List ChatMsg
deriving DecidableEq

/-- The rejection of an empty post (ChatView.jsx 40-41: `if (!t) return`). -/
inductive ChatError where
  | emptyMessage
deriving DecidableEq

/-- The seeded chat store (App.jsx 161-164). -/
def initialChatState : ChatState :=
  { channels := [{ id := "general", name := "General", type := "Channel" }]
    messages := [] }

/-- The fixed broadcast channel id (ChatView.jsx: `sel === "general"`). -/
def broadcastId : String := "general"

/-- `String.prototype.toLowerCase`, character-wise. -/
def lowerStr (s : String) : String := s.map Char.toLower

/-- `dmKey` (ChatView.jsx 7):
    `(a, b) => "dm:" + [a.toLowerCase(), b.toLowerCase()].sort().join("|")`.
    A stable sort of a two-element array swaps exactly when the second element
    is smaller. -/
def dmKey (a b : String) : String :=
  "dm:" ++ String.intercalate "|"
    (if lowerStr b < lowerStr a then [lowerStr b, lowerStr a]
     else [lowerStr a, lowerStr b])

/-- Modelled from the spec (§4.5): "the canonical sorted-lowercase join of the
    two participant emails".  Used only as the comparison point for the
    canonical-form part of the thread-id claim. -/
def sortedLowerJoin (a b : String) : String :=
  if lowerStr a ≤ lowerStr b then lowerStr a ++ "|" ++ lowerStr b
  else lowerStr b ++ "|" ++ lowerStr a

/-- `ChatView.send` (ChatView.jsx 39-53): reject a text that trims to empty,
    otherwise append one message carrying the author snapshot; `newId` and
    `nowTs` are the generated message id and the current ISO timestamp. -/
def chatSend (st : ChatState) (activeId text newId nowTs : String)
    (cu : UserSnap) : Except ChatError ChatState :=
  if jsTrim text = "" then .error .emptyMessage
  else .ok
    { st with
      messages := st.messages ++
        [{ id := newId, channelId := activeId, text := jsTrim text,
           ts := nowTs, user := cu }] }

/-- A notes/tags entry of the annotation store (App.jsx 154, 953-954). -/
structure AnnotationEntry where
  notes : String
  tags : List String
deriving DecidableEq

/-- First-occurrence de-duplication: `Array.from(new Set(xs))` keeps each
    element's first occurrence in insertion order. -/
def dedupFirst : List String → List String
  | [] => []
  | x :: xs => x :: (dedupFirst xs).filter (fun y => y ≠ x)

/-- Tag normalization of `NotesModal.save` (App.jsx 953):
    `Array.from(new Set(tagsInput.split(",").map(t => t.trim()).filter(Boolean)))`. -/
def normalizeTags (input : String) : List String :=
  dedupFirst (((jsSplitComma input).map jsTrim).filter (fun t => t ≠ ""))

/-- `NotesModal.save` (App.jsx 952-955): the stored entry. -/
def notesSave (notes tagsInput : String) : AnnotationEntry :=
  { notes := jsTrim notes, tags := normalizeTags tagsInput }

/-- `setNotesMap(prev => ({ ...prev, [id]: val }))` (App.jsx 937-938), the
    notes map viewed as a key-indexed lookup. -/
def notesMapSet (m : String → Option AnnotationEntry) (key : String)
    (v : AnnotationEntry) : String → Option AnnotationEntry :=
  fun k => if k = key then some v else m k

/-- A calendar event (CalendarView EventModal.save). -/
structure CalEvent where
  id : String
  title : String
  date : String
  timeStart : String
  timeEnd : String
  location : String
  attendees : List String
  description : String
  createdBy : String
  createdAt : String
  updatedAt : String
deriving DecidableEq

/-- The proleptic-Gregorian leap-year rule used by JS `Date`. -/
def isLeap (y : Int) : Bool :=
  (y % 4 == 0 && y % 100 != 0) || y % 400 == 0

/-- Days in month `m` (1-12) of year `y`, i.e. `new Date(y, m, 0).getDate()`. -/
def daysInMonth (y m : Int) : Int :=
  if m == 2 then (if isLeap y then 29 else 28)
  else if m == 4 || m == 6 || m == 9 || m == 11 then 30
  else 31

/-- Epoch-day number of the civil date `y-m-d` (days since 1970-01-01), the
    day count underlying a JS `Date` at midnight; every division is a floor
    division (Lean's `Int` division). -/
def daysFromCivil (y m d : Int) : Int :=
  let y1 := if m ≤ 2 then y - 1 else y
  let era := y1 / 400
  let yoe := y1 - era * 400
  let mp := (m + 9) % 12
  let doy := (153 * mp + 2) / 5 + d - 1
  let doe := yoe * 365 + yoe / 4 - yoe / 100 + doy
  era * 146097 + doe - 719468

/-- Civil `(y, m, d)` of an epoch-day number, the inverse direction of
    `daysFromCivil`; every division is a floor division. -/
def civilFromDays (z0 : Int) : Int × Int × Int :=
  let z := z0 + 719468
  let era := z / 146097
  let doe := z - era * 146097
  let yoe := (doe - doe / 1460 + doe / 36524 - doe / 146096) / 365
  let y := yoe + era * 400
  let doy := doe - (365 * yoe + yoe / 4 - yoe / 100)
  let mp := (5 * doy + 2) / 153
  let d := doy - (153 * mp + 2) / 5 + 1
  let m := if mp < 10 then mp + 3 else mp - 9
  (if m ≤ 2 then y + 1 else y, m, d)

/-- Left-pad a numeral with zeros. -/
def padNum (n : Int) (width : Nat) : String :=
  let s := toString n.toNat
  String.mk (List.replicate (width - s.length) '0') ++ s

/-- `fmtYMD` (CalendarView): `d.toISOString().slice(0, 10)` of a midnight
    date, i.e. the `YYYY-MM-DD` rendering of an epoch-day number. -/
def fmtYMD (d : Int) : String :=
  let c := civilFromDays d
  padNum c.1 4 ++ "-" ++ padNum c.2.1 2 ++ "-" ++ padNum c.2.2 2

/-- `Date.prototype.getDay` on an epoch-day number: 0 = Sunday
    (1970-01-01, epoch day 0, was a Thursday). -/
def jsGetDay (d : Int) : Int := (d + 4) % 7

/-- `startOfMonth(cursor)` (CalendarView) as an epoch-day number, for the
    cursor month `m` (1-12) of year `y`. -/
def monthStart (y m : Int) : Int := daysFromCivil y m 1

/-- `gridStart = addDays(mStart, -((mStart.getDay() + 7) % 7))`
    (CalendarView, ChatView.jsx source lines 362-369 of the month grid). -/
def gridStart (y m : Int) : Int :=
  monthStart y m - (jsGetDay (monthStart y m) + 7) % 7

/-- The 42-cell month grid (`Array.from({length: 42}, (_, i) =>
    addDays(gridStart, i))`), each cell an epoch-day number. -/
def monthGrid (y m : Int) : List Int :=
  (List.range 42).map fun i : Nat => gridStart y m + (i : Int)

/-- Denotation of `eventsByDay[ymd] || []` (CalendarView `eventsByDay`
    useMemo): the keyed grouping looked up at `ymd` is exactly the sublist of
    events whose `date` equals `ymd`, in original order. -/
def eventsFor (events : List CalEvent) (ymd : String) : List CalEvent :=
  events.filter fun ev => ev.date == ymd

/-- The JSON value shapes that `JSON.stringify` produces for the persisted
    stores (all persisted fields are strings, arrays or objects). -/
inductive Json where
  | str : String → Json
  | arr : List Json → Json
  | obj : List (String × Json) → Json

/-- Field lookup in a parsed JSON object. -/
def Json.getField (fs : List (String × Json)) (k : String) : Option Json :=
  (fs.find? fun p => p.1 == k).map (fun p => p.2)

def Json.asStr : Json → Option String
  | .str s => some s
  | _ => none

def Json.asArr : Json → Option (List Json)
  | .arr l => some l
  | _ => none

def Json.asObj : Json → Option (List (String × Json))
  | .obj l => some l
  | _ => none

/-- Decode every element of a parsed JSON array. -/
def decodeList (dec : Json → Option α) : List Json → Option (List α)
  | [] => some []
  | j :: rest => do
      let x ← dec j
      let xs ← decodeList dec rest
      pure (x :: xs)

/-- `JSON.stringify` image of one task. -/
def encodeTask (t : Task) : Json :=
  .obj [("id", .str t.id), ("title", .str t.title),
        ("description", .str t.description), ("assignee", .str t.assignee),
        ("priority", .str t.priority), ("due", .str t.due),
        ("status", .str t.status), ("createdBy", .str t.createdBy),
        ("createdAt", .str t.createdAt), ("updatedAt", .str t.updatedAt)]

/-- Reading one task back from its parsed JSON object. -/
def decodeTask (j : Json) : Option Task := do
  let fs ← j.asObj
  let id ← (Json.getField fs "id").bind Json.asStr
  let title ← (Json.getField fs "title").bind Json.asStr
  let description ← (Json.getField fs "description").bind Json.asStr
  let assignee ← (Json.getField fs "assignee").bind Json.asStr
  let priority ← (Json.getField fs "priority").bind Json.asStr
  let due ← (Json.getField fs "due").bind Json.asStr
  let status ← (Json.getField fs "status").bind Json.asStr
  let createdBy ← (Json.getField fs "createdBy").bind Json.asStr
  let createdAt ← (Json.getField fs "createdAt").bind Json.asStr
  let updatedAt ← (Json.getField fs "updatedAt").bind Json.asStr
  pure { id, title, description, assignee, priority, due, status,
         createdBy, createdAt, updatedAt }

/-- `JSON.stringify` image of the tasks store (App.jsx 157, a task array). -/
def encodeTasks (ts : List Task) : Json := .arr (ts.map encodeTask)

def decodeTasks (j : Json) : Option (List Task) := do
  let l ← j.asArr
  decodeList decodeTask l

/-- `JSON.stringify` image of one calendar event. -/
def encodeEvent (e : CalEvent) : Json :=
  .obj [("id", .str e.id), ("title", .str e.title), ("date", .str e.date),
        ("timeStart", .str e.timeStart), ("timeEnd", .str e.timeEnd),
        ("location", .str e.location),
        ("attendees", .arr (e.attendees.map Json.str)),
        ("description", .str e.description), ("createdBy", .str e.createdBy),
        ("createdAt", .str e.createdAt), ("updatedAt", .str e.updatedAt)]

def decodeEvent (j : Json) : Option CalEvent := do
  let fs ← j.asObj
  let id ← (Json.getField fs "id").bind Json.asStr
  let title ← (Json.getField fs "title").bind Json.asStr
  let date ← (Json.getField fs "date").bind Json.asStr
  let timeStart ← (Json.getField fs "timeStart").bind Json.asStr
  let timeEnd ← (Json.getField fs "timeEnd").bind Json.asStr
  let location ← (Json.getField fs "location").bind Json.asStr
  let aj ← (Json.getField fs "attendees").bind Json.asArr
  let attendees ← decodeList Json.asStr aj
  let description ← (Json.getField fs "description").bind Json.asStr
  let createdBy ← (Json.getField fs "createdBy").bind Json.asStr
  let createdAt ← (Json.getField fs "createdAt").bind Json.asStr
  let updatedAt ← (Json.getField fs "updatedAt").bind Json.asStr
  pure { id, title, date, timeStart, timeEnd, location, attendees,
         description, createdBy, createdAt, updatedAt }

/-- `JSON.stringify` image of the calendar store (App.jsx 160, an array). -/
def encodeEvents (es : List CalEvent) : Json := .arr (es.map encodeEvent)

def decodeEvents (j : Json) : Option (List CalEvent) := do
  let l ← j.asArr
  decodeList decodeEvent l

def encodeUserSnap (u : UserSnap) : Json :=
  .obj [("email", .str u.email), ("name", .str u.name), ("role", .str u.role)]

def decodeUserSnap (j : Json) : Option UserSnap := do
  let fs ← j.asObj
  let email ← (Json.getField fs "email").bind Json.asStr
  let name ← (Json.getField fs "name").bind Json.asStr
  let role ← (Json.getField fs "role").bind Json.asStr
  pure { email, name, role }

def encodeMsg (m : ChatMsg) : Json :=
  .obj [("id", .str m.id), ("channelId", .str m.channelId),
        ("text", .str m.text), ("ts", .str m.ts),
        ("user", encodeUserSnap m.user)]

def decodeMsg (j : Json) : Option ChatMsg := do
  let fs ← j.asObj
  let id ← (Json.getField fs "id").bind Json.asStr
  let channelId ← (Json.getField fs "channelId").bind Json.asStr
  let text ← (Json.getField fs "text").bind Json.asStr
  let ts ← (Json.getField fs "ts").bind Json.asStr
  let uj ← Json.getField fs "user"
  let user ← decodeUserSnap uj
  pure { id, channelId, text, ts, user }

def encodeChannel (c : Channel) : Json :=
  .obj [("id", .str c.id), ("name", .str c.name), ("type", .str c.type)]

def decodeChannel (j : Json) : Option Channel := do
  let fs ← j.asObj
  let id ← (Json.getField fs "id").bind Json.asStr
  let name ← (Json.getField fs "name").bind Json.asStr
  let type ← (Json.getField fs "type").bind Json.asStr
  pure { id, name, type }

/-- `JSON.stringify` image of the chat store (App.jsx 161-164:
    `{channels, messages}`). -/
def encodeChat (st : ChatState) : Json :=
  .obj [("channels", .arr (st.channels.map encodeChannel)),
        ("messages", .arr (st.messages.map encodeMsg))]

def decodeChat (j : Json) : Option ChatState := do
  let fs ← j.asObj
  let cj ← (Json.getField fs "channels").bind Json.asArr
  let channels ← decodeList decodeChannel cj
  let mj ← (Json.getField fs "messages").bind Json.asArr
  let messages ← decodeList decodeMsg mj
  pure { channels, messages }

/-- A raw persisted payload at startup: absent, present but rejected by
    `JSON.parse`, or parsed (`useLocalJson`, App.jsx 87-102). -/
inductive Stored where
  | missing
  | malformed
  | parsed (j : Json)

/-- The startup read of `useLocalJson` (App.jsx 88-95): the parsed payload
    when available and readable as the expected collection, the initial value
    otherwise (JSON.parse failures are caught and a missing key yields the
    initial value). -/
def loadStored (s : Stored) (dec : Json → Option α) (initial : α) : α :=
  match s with
  | .missing => initial
  | .malformed => initial
  | .parsed j => (dec j).getD initial

/-- Fixture account list used by the concrete witnesses. -/
def demoUsers : List User :=
  [{ email := "a@x.com", password := "pw", name := "A", role := "Admin",
     active := true }]

/-- Fixture: an existing task whose id is the numeral string "100". -/
def cxTask : Task :=
  { id := "100", title := "Old", description := "", assignee := "lab1@x.com",
    priority := "Medium", due := "", status := "Pending",
    createdBy := "admin@x.com", createdAt := "t0", updatedAt := "t0" }

/-- Fixture: the payload of a valid task creation. -/
def cxPayload : TaskPayload :=
  { title := "Sequence QC", description := "", assignee := "lab1@x.com",
    priority := "High", due := "", status := "Pending" }

/-- Fixture task visible to the lab-staff account `lab1@x.com`. -/
def wTask : Task :=
  { id := "1", title := "T", description := "", assignee := "lab1@x.com",
    priority := "Medium", due := "", status := "Pending",
    createdBy := "doc@x.com", createdAt := "t", updatedAt := "t" }

/-! ## Theorems -/

/-- Claim C10 (implicit, frame/effect): `setStatus(id, status)` keeps the list
    length and order, and rewrites each entry pointwise: the matching task gets
    the new status and a re-stamped `updatedAt` with every other field
    preserved, and a task with a different id is returned unchanged. -/
theorem updateStatus_frame (tasks : List Task) (id status nowIso : String) :
    (updateStatus tasks id status nowIso).length = tasks.length ∧
    ∀ i : Nat,
      (updateStatus tasks id status nowIso)[i]? =
        tasks[i]?.map fun t =>
          if t.id = id then { t with status := status, updatedAt := nowIso }
          else t := by
  refine ⟨by simp [updateStatus], fun i => ?_⟩
  simp [updateStatus]

/-- Claim C3: a Lab Staff caller's visible task list only ever contains tasks
    assigned to that caller, whatever the query filters; every other role sees
    the full set restricted only by the optional assignee/status filters. -/
theorem labStaff_sees_only_own_tasks (tasks : List Task) (email af sf : String) :
    (∀ t ∈ visibleTasks tasks "Lab Staff" email af sf, t.assignee = email) ∧
    (∀ role, role ≠ "Lab Staff" →
      visibleTasks tasks role email af sf =
        tasks.filter fun t =>
          (if af = "" then true else t.assignee == af) &&
          (if sf = "" then true else t.status == sf)) := by
  constructor
  · intro t ht
    have h := (List.mem_filter.mp ht).2
    simp only [reduceIte, Bool.and_eq_true, beq_iff_eq] at h
    exact h.1.1
  · intro role hrole
    simp [visibleTasks, hrole]

/-- Witness for C3 at a concrete fixture. -/
theorem labStaff_sees_only_own_tasks_witness : wTask.assignee = "lab1@x.com" :=
  (labStaff_sees_only_own_tasks [wTask] "lab1@x.com" "" "").1 wTask (by decide)

/-- Claim C9 (hyperproperty): the login outcome and the resulting lockout
    state are identical for any two values of the "Login as" selector, and a
    successful login takes its `{name, role, email}` entirely from the stored
    account. -/
theorem login_ignores_role_selector (users : List User)
    (email pass r1 r2 : String) (st : LockState) (now : Nat) :
    loginSubmit users email pass r1 st now =
      loginSubmit users email pass r2 st now ∧
    (∀ u : User, isLocked st now = false → findUser users email pass = some u →
      u.active = true →
      loginSubmit users email pass r1 st now =
        (.success u.name u.role u.email, st)) := by
  refine ⟨rfl, ?_⟩
  intro u hl hf ha
  simp [loginSubmit, hl, hf, ha]

/-- Witness for C9 at a concrete fixture. -/
theorem login_ignores_role_selector_witness :
    loginSubmit demoUsers "a@x.com" "pw" "Lab Staff" ⟨0, none⟩ 7 =
      (.success "A" "Admin" "a@x.com", ⟨0, none⟩) :=
  (login_ignores_role_selector demoUsers "a@x.com" "pw" "Lab Staff" "Doctor"
      ⟨0, none⟩ 7).2
    { email := "a@x.com", password := "pw", name := "A", role := "Admin",
      active := true }
    (by decide) (by decide) (by decide)

/-- Claim C6: saving an annotation normalizes the tag input by trimming,
    dropping empties and de-duplicating, so `"a, a, b ,  "` stores exactly
    `["a", "b"]`; and repeating an identical save leaves the notes map at the
    identical stored entry. -/
theorem notesSave_normalizes_and_idempotent :
    normalizeTags "a, a, b ,  " = ["a", "b"] ∧
    ∀ (m : String → Option AnnotationEntry) (key notes tagsInput : String),
      notesMapSet (notesMapSet m key (notesSave notes tagsInput)) key
          (notesSave notes tagsInput) =
        notesMapSet m key (notesSave notes tagsInput) := by
  refine ⟨by decide, ?_⟩
  intro m key notes tagsInput
  funext k
  by_cases hk : k = key <;> simp [notesMapSet, hk]

/-- Claim C7: posting a text that trims to empty is rejected with
    `EmptyMessage` and changes nothing; posting a non-empty text appends
    exactly one message `{id, channelId, text, ts, user-snapshot}` at the end
    of the log; and any successful send preserves the existing log as an
    untouched prefix (the log is append-only). -/
theorem chatSend_spec (st : ChatState) (activeId text newId nowTs : String)
    (cu : UserSnap) :
    (jsTrim text = "" →
      chatSend st activeId text newId nowTs cu = .error .emptyMessage) ∧
    (jsTrim text ≠ "" →
      chatSend st activeId text newId nowTs cu =
        .ok { st with
          messages := st.messages ++
            [{ id := newId, channelId := activeId, text := jsTrim text,
               ts := nowTs, user := cu }] }) ∧
    (∀ st', chatSend st activeId text newId nowTs cu = .ok st' →
      st'.channels = st.channels ∧
      st'.messages.take st.messages.length = st.messages ∧
      st'.messages.length = st.messages.length + 1) := by
  refine ⟨fun h => by simp [chatSend, h], fun h => by simp [chatSend, h], ?_⟩
  intro st' h
  by_cases he : jsTrim text = ""
  · simp [chatSend, he] at h
  · simp only [chatSend, he, reduceIte, Except.ok.injEq] at h
    subst h
    exact ⟨rfl, List.take_left _ _, by simp⟩

/-- Witness for C7: an all-whitespace post is rejected. -/
theorem chatSend_spec_witness :
    chatSend initialChatState "general" "   " "m1" "2025-01-01T00:00:00.000Z"
      { email := "a@x.com", name := "A", role := "Admin" } =
      .error .emptyMessage :=
  (chatSend_spec initialChatState "general" "   " "m1"
      "2025-01-01T00:00:00.000Z"
      { email := "a@x.com", name := "A", role := "Admin" }).1 (by decide)

/-- Claim C2: starting from a fresh session, three failed submissions (wrong
    email/password pairs) leave the session locked until one hour past the
    third failure; while locked every submission — with any credentials — is
    rejected and the state is unchanged; once the hour has elapsed a correct
    submission succeeds; and a successful submission from any unlocked state
    never sets the lockout. -/
theorem login_lockout_after_three_failures (users : List User)
    (e1 p1 e2 p2 e3 p3 r : String) (t1 t2 t3 : Nat)
    (h1 : findUser users e1 p1 = none)
    (h2 : findUser users e2 p2 = none)
    (h3 : findUser users e3 p3 = none) :
    loginSubmit users e1 p1 r ⟨0, none⟩ t1 = (.invalid, ⟨1, none⟩) ∧
    loginSubmit users e2 p2 r ⟨1, none⟩ t2 = (.invalid, ⟨2, none⟩) ∧
    loginSubmit users e3 p3 r ⟨2, none⟩ t3 =
      (.invalid, ⟨3, some (t3 + 60 * 60 * 1000)⟩) ∧
    (∀ e p t4, t4 < t3 + 60 * 60 * 1000 →
      loginSubmit users e p r ⟨3, some (t3 + 60 * 60 * 1000)⟩ t4 =
        (.locked, ⟨3, some (t3 + 60 * 60 * 1000)⟩)) ∧
    (∀ e p t4 u, t3 + 60 * 60 * 1000 ≤ t4 →
      findUser users e p = some u → u.active = true →
      (loginSubmit users e p r ⟨3, some (t3 + 60 * 60 * 1000)⟩ t4).1 =
        .success u.name u.role u.email) ∧
    (∀ st : LockState, st.lockedUntil = none →
      ∀ e p t u, findUser users e p = some u → u.active = true →
        loginSubmit users e p r st t = (.success u.name u.role u.email, st)) := by
  refine ⟨?_, ?_, ?_, ?_, ?_, ?_⟩
  · simp [loginSubmit, isLocked, h1]
  · simp [loginSubmit, isLocked, h2]
  · simp [loginSubmit, isLocked, h3]
  · intro e p t4 hlt
    simp [loginSubmit, isLocked, hlt]
  · intro e p t4 u hge hf ha
    simp [loginSubmit, isLocked, Nat.not_lt.mpr hge, hf, ha]
  · intro st hnone e p t u hf ha
    simp [loginSubmit, isLocked, hnone, hf, ha]

/-- Witness for C2: a concrete wrong-password submission counts a failure. -/
theorem login_lockout_witness :
    loginSubmit demoUsers "a@x.com" "bad" "Doctor" ⟨0, none⟩ 0 =
      (.invalid, ⟨1, none⟩) :=
  (login_lockout_after_three_failures demoUsers "a@x.com" "bad" "a@x.com"
      "bad" "a@x.com" "bad" "Doctor" 0 1 2 (by decide) (by decide)
      (by decide)).1

/-- Claim C1, counterexample: task ids come from `String(Date.now())`, so a
    creation whose clock value collides with an existing task's id is not
    fresh.  Here the store already holds a task with id `"100"` and a valid
    creation happens at millisecond 100: the created task's id equals the
    existing task's id. -/
theorem createTask_id_collision :
    taskModalSave "Sequence QC" "" "lab1@x.com" "High" "" "Pending" =
      .ok cxPayload ∧
    ((createTask [cxTask] cxPayload "admin@x.com" 100
        "2025-01-01T00:00:00.000Z").map Task.id).head? = some "100" ∧
    "100" ∈ [cxTask].map Task.id :=
  ⟨rfl, by decide, by decide⟩

/-- Claim C1 as amended: provided the creation-time clock string differs from
    every existing task id, a valid creation prepends one new task whose id is
    fresh, whose `createdBy` is the acting account's email, whose timestamps
    are set, and which is immediately in the visible list of every caller
    permitted to see it (unfiltered query). -/
theorem createTask_fresh_spec (tasks : List Task)
    (title description assignee priority due status actor : String)
    (nowMs : Nat) (nowIso : String) (p : TaskPayload)
    (hv : taskModalSave title description assignee priority due status = .ok p)
    (hfresh : toString nowMs ∉ tasks.map Task.id) :
    ∃ nt : Task,
      createTask tasks p actor nowMs nowIso = nt :: tasks ∧
      nt.id = toString nowMs ∧
      nt.id ∉ tasks.map Task.id ∧
      nt.createdBy = actor ∧
      nt.createdAt = nowIso ∧
      nt.updatedAt = nowIso ∧
      nt.title = p.title ∧
      nt.assignee = p.assignee ∧
      ∀ role email, (role = "Lab Staff" → nt.assignee = email) →
        nt ∈ visibleTasks (createTask tasks p actor nowMs nowIso)
          role email "" "" := by
  refine ⟨_, rfl, rfl, hfresh, rfl, rfl, rfl, rfl, rfl, ?_⟩
  intro role email hperm
  apply List.mem_filter.mpr
  refine ⟨List.mem_cons_self _ _, ?_⟩
  by_cases hr : role = "Lab Staff"
  · have hp : p.assignee = email := hperm hr
    simp [hr, hp]
  · simp [hr]

/-- Witness for the amended C1 at a concrete non-colliding creation. -/
theorem createTask_fresh_spec_witness :
    ((createTask [cxTask] cxPayload "admin@x.com" 101
        "2025-01-01T00:00:00.000Z").map Task.id).head? = some "101" := by
  obtain ⟨nt, he, hid, -⟩ :=
    createTask_fresh_spec [cxTask] "Sequence QC" "" "lab1@x.com" "High" ""
      "Pending" "admin@x.com" 101 "2025-01-01T00:00:00.000Z" cxPayload
      rfl (by decide)
  rw [he]
  simp [hid]
  decide

/-- Claim C4: the direct-message thread id is symmetric in its two
    participants and equals `"dm:"` followed by the sorted lower-cased join of
    the two emails, so both participants resolve the same thread; the
    broadcast channel is the fixed constant id `"general"`, the id of the
    single seeded channel. -/
theorem dmKey_symmetric_canonical (a b : String) :
    dmKey a b = dmKey b a ∧
    dmKey a b = "dm:" ++ sortedLowerJoin a b ∧
    broadcastId = "general" ∧
    initialChatState.channels.map Channel.id = [broadcastId] := by
  refine ⟨?_, ?_, rfl, rfl⟩
  · unfold dmKey
    rcases lt_trichotomy (lowerStr a) (lowerStr b) with h | h | h
    · rw [if_neg (asymm h), if_pos h]
    · rw [h]
    · rw [if_pos h, if_neg (asymm h)]
  · unfold dmKey sortedLowerJoin
    rcases le_or_lt (lowerStr a) (lowerStr b) with h | h
    · rw [if_neg (not_lt.mpr h), if_pos h]
      rfl
    · rw [if_pos h, if_neg (not_le.mpr h)]
      rfl

/-- Every Gregorian month has at most 31 days. -/
theorem daysInMonth_le_31 (y m : Int) : daysInMonth y m ≤ 31 := by
  unfold daysInMonth
  split
  · split <;> decide
  · split <;> decide

/-- `(getDay + 7) % 7` is the identity on `getDay`, so the grid start is the
    month start moved back by its weekday. -/
theorem gridStart_eq (y m : Int) :
    gridStart y m = monthStart y m - jsGetDay (monthStart y m) := by
  have hw0 : 0 ≤ jsGetDay (monthStart y m) := Int.emod_nonneg _ (by decide)
  have hw7 : jsGetDay (monthStart y m) < 7 := Int.emod_lt_of_pos _ (by decide)
  unfold gridStart
  omega

/-- Claim C5: for every cursor month the grid has exactly 42 cells, the first
    cell is a Sunday on or before the first of the month, every day of the
    cursor's month occurs exactly once among the cells, and a cell's event
    list is exactly the events whose date equals that cell's date string. -/
theorem monthGrid_spec (y m : Int) :
    (monthGrid y m).length = 42 ∧
    (monthGrid y m)[0]? = some (gridStart y m) ∧
    jsGetDay (gridStart y m) = 0 ∧
    gridStart y m ≤ monthStart y m ∧
    (∀ d : Int, monthStart y m ≤ d →
      d < monthStart y m + daysInMonth y m → (monthGrid y m).count d = 1) ∧
    (∀ (evs : List CalEvent) (day : Int) (ev : CalEvent), day ∈ monthGrid y m →
      (ev ∈ eventsFor evs (fmtYMD day) ↔ ev ∈ evs ∧ ev.date = fmtYMD day)) := by
  have hw0 : 0 ≤ jsGetDay (monthStart y m) := Int.emod_nonneg _ (by decide)
  have hw7 : jsGetDay (monthStart y m) < 7 := Int.emod_lt_of_pos _ (by decide)
  have hg := gridStart_eq y m
  refine ⟨?_, ?_, ?_, ?_, ?_, ?_⟩
  · simp only [monthGrid, List.length_map, List.length_range]
  · show ((List.range 42).map fun i : Nat => gridStart y m + (i : Int))[0]? =
      some (gridStart y m)
    rw [List.getElem?_map, List.getElem?_range (by decide)]
    simp
  · rw [hg]
    unfold jsGetDay at *
    omega
  · omega
  · intro d h1 h2
    have h31 := daysInMonth_le_31 y m
    have hinj : Function.Injective fun i : Nat => gridStart y m + (i : Int) := by
      intro i j hij
      have h : gridStart y m + (i : Int) = gridStart y m + (j : Int) := hij
      omega
    have hnd : (monthGrid y m).Nodup := by
      unfold monthGrid
      exact List.Nodup.map hinj (List.nodup_range 42)
    have hlt : (d - gridStart y m).toNat < 42 := by omega
    have heq : gridStart y m + ((d - gridStart y m).toNat : Int) = d := by omega
    have hmem : d ∈ monthGrid y m := by
      unfold monthGrid
      exact List.mem_map.mpr ⟨_, List.mem_range.mpr hlt, heq⟩
    exact List.count_eq_one_of_mem hnd hmem
  · intro evs day ev hday
    simp [eventsFor, List.mem_filter]

/-- Witness for C5: the tenth day of March 2025 occurs exactly once in that
    month's grid. -/
theorem monthGrid_spec_witness :
    (monthGrid 2025 3).count (monthStart 2025 3 + 9) = 1 :=
  (monthGrid_spec 2025 3).2.2.2.2.1 (monthStart 2025 3 + 9) (by decide)
    (by decide)

/-- Decoding the element-wise image of an encoder recovers the list. -/
theorem decodeList_map_encode {α : Type} (dec : Json → Option α)
    (enc : α → Json) (h : ∀ x, dec (enc x) = some x) :
    ∀ l : List α, decodeList dec (l.map enc) = some l := by
  intro l
  induction l with
  | nil => rfl
  | cons x xs ih => simp [decodeList, h, ih]

theorem decodeTask_encodeTask (t : Task) : decodeTask (encodeTask t) = some t :=
  rfl

theorem decodeTasks_encodeTasks (ts : List Task) :
    decodeTasks (encodeTasks ts) = some ts := by
  show decodeList decodeTask (ts.map encodeTask) = some ts
  exact decodeList_map_encode decodeTask encodeTask decodeTask_encodeTask ts

theorem decodeEvent_encodeEvent (e : CalEvent) :
    decodeEvent (encodeEvent e) = some e := by
  have ha := decodeList_map_encode Json.asStr Json.str (fun s => rfl) e.attendees
  show (decodeList Json.asStr (e.attendees.map Json.str)).bind
      (fun attendees => some
        { id := e.id, title := e.title, date := e.date,
          timeStart := e.timeStart, timeEnd := e.timeEnd,
          location := e.location, attendees := attendees,
          description := e.description, createdBy := e.createdBy,
          createdAt := e.createdAt, updatedAt := e.updatedAt }) = some e
  rw [ha]
  rfl

theorem decodeEvents_encodeEvents (es : List CalEvent) :
    decodeEvents (encodeEvents es) = some es := by
  show decodeList decodeEvent (es.map encodeEvent) = some es
  exact decodeList_map_encode decodeEvent encodeEvent decodeEvent_encodeEvent es

theorem decodeChat_encodeChat (cs : ChatState) :
    decodeChat (encodeChat cs) = some cs := by
  have hc := decodeList_map_encode decodeChannel encodeChannel (fun c => rfl)
    cs.channels
  have hm := decodeList_map_encode decodeMsg encodeMsg (fun msg => rfl)
    cs.messages
  show (decodeList decodeChannel (cs.channels.map encodeChannel)).bind
      (fun channels =>
        (decodeList decodeMsg (cs.messages.map encodeMsg)).bind
          (fun messages => some { channels := channels, messages := messages })) =
      some cs
  rw [hc, hm]
  rfl

/-- Claim C8: serializing the Tasks, Calendar-Events, and Chat stores and
    reading them back yields the structurally identical collection (element
    order included), while a missing or malformed persisted payload loads as
    the supplied default instead of raising an error. -/
theorem persistence_roundtrip :
    (∀ (ts init : List Task),
      loadStored (.parsed (encodeTasks ts)) decodeTasks init = ts) ∧
    (∀ (es init : List CalEvent),
      loadStored (.parsed (encodeEvents es)) decodeEvents init = es) ∧
    (∀ (cs init : ChatState),
      loadStored (.parsed (encodeChat cs)) decodeChat init = cs) ∧
    (∀ (α : Type) (dec : Json → Option α) (init : α),
      loadStored .missing dec init = init ∧
      loadStored .malformed dec init = init) := by
  refine ⟨?_, ?_, ?_, fun α dec init => ⟨rfl, rfl⟩⟩
  · intro ts init
    simp [loadStored, decodeTasks_encodeTasks]
  · intro es init
    simp [loadStored, decodeEvents_encodeEvents]
  · intro cs init
    simp [loadStored, decodeChat_encodeChat]

end GenomeRx
